import Mathlib

/-!
Verification development for the decision-to-execution pipeline of an
autonomous cryptocurrency-futures trading agent.

The embedding below is a shallow translation of the TypeScript source:

* JavaScript numbers are modelled as rationals (`ℚ`).  Rational division is
  total with `x / 0 = 0`; every theorem whose conclusion depends on a
  quotient therefore carries a positivity hypothesis on the denominator.
  Where a claim is precisely about non-finite results of a division
  (the Sharpe-ratio computation), the division is instead modelled as a
  partial operation returning `Option ℚ`, with `none` standing for the
  IEEE non-finite values `NaN` / `±Infinity`.
* JavaScript truthiness on optional numeric fields (`undefined` and `0`
  are falsy) is modelled by `truthy`.
* Asynchronous venue interaction is modelled by an explicit environment
  (`Env`) supplying the data returned by venue reads, and by an explicit
  trace (`List VenueOrder`) of the orders actually placed on the venue.
  Venue reads that the source recovers from with degraded defaults are
  modelled by the environment containing the degenerate data (an empty
  position list, a zero balance), which drives the source down the same
  branch.
* Class methods become functions taking the relevant state explicitly.
-/

namespace Nof1

/-- The fixed symbol universe of the system. -/
inductive SymbolType
  | BTC
  | ETH
  | SOL
  | BNB
  | DOGE
  | XRP
deriving DecidableEq, Repr

/-- Ticker string of a symbol, as used in template literals of the source. -/
def SymbolType.name : SymbolType → String
  | .BTC => "BTC"
  | .ETH => "ETH"
  | .SOL => "SOL"
  | .BNB => "BNB"
  | .DOGE => "DOGE"
  | .XRP => "XRP"

/-- JavaScript truthiness of an optional numeric value:
`undefined` and `0` are falsy, every other number is truthy.
(`NaN` is also falsy in JavaScript; it does not arise in the modelled paths.) -/
def truthy : Option ℚ → Bool
  | none => false
  | some x => decide (x ≠ 0)

/-- JavaScript `x || d` for an optional number `x` and default `d`. -/
def jsOr (x : Option ℚ) (d : ℚ) : ℚ :=
  if truthy x then x.getD 0 else d

/-- JavaScript `x || d` for a (non-optional) number `x`. -/
def jsOrQ (x d : ℚ) : ℚ :=
  if x = 0 then d else x

/-- JavaScript `a || b` keeping the optional shape (used for
`order.price || order.average`). -/
def jsOrOpt (a b : Option ℚ) : Option ℚ :=
  if truthy a then a else b

/-! ## risk-management.ts -/

/-- `RiskParameters` of `risk-management.ts`. -/
structure RiskParameters where
  maxPositionSizeUSD : ℚ
  maxLeverage : ℚ
  maxRiskPerTrade : ℚ
  maxDailyLoss : ℚ
  maxTotalRisk : ℚ
  minRiskRewardRatio : ℚ
  stopLossATRMultiplier : ℚ
  takeProfitATRMultiplier : ℚ
deriving DecidableEq, Repr

/-- The defaults installed by the `RiskManager` constructor. -/
def defaultRiskParameters : RiskParameters where
  maxPositionSizeUSD := 1000000
  maxLeverage := 125
  maxRiskPerTrade := 1
  maxDailyLoss := 1000000
  maxTotalRisk := 1
  minRiskRewardRatio := 1/10
  stopLossATRMultiplier := 10
  takeProfitATRMultiplier := 1

/-- `PositionRisk` of `risk-management.ts`. -/
structure PositionRisk where
  symbol : SymbolType
  entryPrice : ℚ
  currentPrice : ℚ
  quantity : ℚ
  leverage : ℚ
  stopLoss : Option ℚ := none
  takeProfit : Option ℚ := none
  unrealizedPnl : ℚ
  riskUsd : ℚ
  riskPercentage : ℚ
deriving DecidableEq, Repr

/-- The mutable state of a `RiskManager` instance. -/
structure RiskManagerState where
  riskParameters : RiskParameters := defaultRiskParameters
  dailyPnl : ℚ := 0
  openPositions : List PositionRisk := []
deriving DecidableEq, Repr

/-- `RiskManager.calculatePositionSize`:
sizing from risk budget, capital cap and a confidence multiplier. -/
def calculatePositionSize (rp : RiskParameters)
    (availableCapital entryPrice stopLoss confidence leverage : ℚ) : ℚ :=
  let riskPerTradeUSD := availableCapital * rp.maxRiskPerTrade
  let riskPerShare := |entryPrice - stopLoss|
  let maxSharesByRisk := riskPerTradeUSD / riskPerShare
  let maxSharesByCapital := rp.maxPositionSizeUSD * leverage / entryPrice
  let confidenceMultiplier := 3/10 + confidence * (7/10)
  let adjustedShares := min maxSharesByRisk maxSharesByCapital * confidenceMultiplier
  max 0 adjustedShares

/-- `RiskManager.addOrUpdatePosition`: `findIndex` on the symbol, then either
in-place replacement or push. -/
def addOrUpdatePosition (positions : List PositionRisk) (position : PositionRisk) :
    List PositionRisk :=
  match positions.findIdx? (fun p => decide (p.symbol = position.symbol)) with
  | some i => positions.set i position
  | none => positions ++ [position]

/-- `RiskManager.removePosition`: filter out the symbol. -/
def removePosition (positions : List PositionRisk) (symbol : SymbolType) :
    List PositionRisk :=
  positions.filter (fun p => decide (p.symbol ≠ symbol))

/-- `RiskManager.calculateTotalRisk`: sum of `riskPercentage`. -/
def calculateTotalRisk (positions : List PositionRisk) : ℚ :=
  positions.foldl (fun total p => total + p.riskPercentage) 0

/-- `RiskManager.shouldHaltTrading`: the body of the source is hard-wired to
`return false` (the comment in the source reads "RISK CONTROL DISABLED");
it reads none of the ledger state. -/
def shouldHaltTrading (_rm : RiskManagerState) : Bool :=
  false

/-- `calculatePositionRisk` of `risk-management.ts`. -/
def calculatePositionRisk (symbol : SymbolType)
    (entryPrice currentPrice quantity leverage : ℚ)
    (stopLoss : Option ℚ) (portfolioValue : ℚ) : PositionRisk :=
  let unrealizedPnl := (currentPrice - entryPrice) * quantity * leverage
  let riskUsd :=
    if truthy stopLoss then |entryPrice - stopLoss.getD 0| * quantity * leverage else 0
  let riskPercentage := riskUsd / portfolioValue
  { symbol := symbol
    entryPrice := entryPrice
    currentPrice := currentPrice
    quantity := quantity
    leverage := leverage
    stopLoss := stopLoss
    takeProfit := none
    unrealizedPnl := unrealizedPnl
    riskUsd := riskUsd
    riskPercentage := riskPercentage }

/-! ## Ledger operation sequences (for the per-symbol uniqueness invariant) -/

/-- A ledger mutation performed by the execution service:
`add` after a successful entry, `remove` after a successful close. -/
inductive LedgerOp
  | add (position : PositionRisk)
  | remove (symbol : SymbolType)
deriving DecidableEq, Repr

/-- Apply one ledger operation. -/
def applyLedgerOp (positions : List PositionRisk) : LedgerOp → List PositionRisk
  | .add p => addOrUpdatePosition positions p
  | .remove s => removePosition positions s

/-- Apply a sequence of ledger operations starting from the empty ledger. -/
def applyLedgerOps (ops : List LedgerOp) : List PositionRisk :=
  ops.foldl applyLedgerOp []

/-- At most one tracked entry per symbol. -/
def uniquePerSymbol (positions : List PositionRisk) : Prop :=
  (positions.map (·.symbol)).Nodup

instance (positions : List PositionRisk) : Decidable (uniquePerSymbol positions) := by
  unfold uniquePerSymbol
  infer_instance

lemma set_eq_self_of_getElem {α : Type _} {l : List α} {i : ℕ} {a : α}
    (hi : i < l.length) (ha : l[i] = a) : l.set i a = l := by
  induction l generalizing i with
  | nil => simp at hi
  | cons x xs ih =>
    cases i with
    | zero => simpa using ha.symm
    | succ n =>
      simp only [List.set_cons_succ, List.cons.injEq, true_and]
      exact ih (by simpa using hi) (by simpa using ha)

lemma addOrUpdatePosition_uniquePerSymbol {ps : List PositionRisk} {p : PositionRisk}
    (h : uniquePerSymbol ps) : uniquePerSymbol (addOrUpdatePosition ps p) := by
  unfold addOrUpdatePosition
  cases hidx : ps.findIdx? (fun q => decide (q.symbol = p.symbol)) with
  | none =>
    have hall := List.findIdx?_eq_none_iff.mp hidx
    unfold uniquePerSymbol
    rw [List.map_append, List.nodup_append]
    refine ⟨h, List.nodup_singleton _, ?_⟩
    intro a ha hb
    simp only [List.map_cons, List.map_nil, List.mem_singleton] at hb
    obtain ⟨q, hq, rfl⟩ := List.mem_map.mp ha
    have := hall q hq
    simp only [decide_eq_false_iff_not] at this
    exact this (hb ▸ rfl)
  | some i =>
    obtain ⟨hi, hpred, -⟩ := List.findIdx?_eq_some_iff_getElem.mp hidx
    simp only [decide_eq_true_eq] at hpred
    unfold uniquePerSymbol
    rw [List.map_set]
    have hlen : i < (ps.map (·.symbol)).length := by simpa using hi
    have : (ps.map (·.symbol))[i] = p.symbol := by
      rw [List.getElem_map]; exact hpred
    rw [set_eq_self_of_getElem hlen this]
    exact h

lemma removePosition_uniquePerSymbol {ps : List PositionRisk} {s : SymbolType}
    (h : uniquePerSymbol ps) : uniquePerSymbol (removePosition ps s) := by
  unfold uniquePerSymbol removePosition
  exact ((List.filter_sublist ps).map (fun p : PositionRisk => p.symbol)).nodup h

lemma applyLedgerOps_go_uniquePerSymbol (ops : List LedgerOp)
    (acc : List PositionRisk) (h : uniquePerSymbol acc) :
    uniquePerSymbol (ops.foldl applyLedgerOp acc) := by
  induction ops generalizing acc with
  | nil => exact h
  | cons op rest ih =>
    cases op with
    | add p => exact ih _ (addOrUpdatePosition_uniquePerSymbol h)
    | remove s => exact ih _ (removePosition_uniquePerSymbol h)

lemma addOrUpdatePosition_replaces {ps : List PositionRisk} {p : PositionRisk}
    (h : uniquePerSymbol ps) :
    ∀ q ∈ addOrUpdatePosition ps p, q.symbol = p.symbol → q = p := by
  intro q hq hsym
  unfold addOrUpdatePosition at hq
  cases hidx : ps.findIdx? (fun r => decide (r.symbol = p.symbol)) with
  | none =>
    rw [hidx] at hq
    rcases List.mem_append.mp hq with hmem | hmem
    · have := List.findIdx?_eq_none_iff.mp hidx q hmem
      simp only [decide_eq_false_iff_not] at this
      exact absurd hsym this
    · simpa using hmem
  | some i =>
    rw [hidx] at hq
    obtain ⟨hi, hpred, -⟩ := List.findIdx?_eq_some_iff_getElem.mp hidx
    simp only [decide_eq_true_eq] at hpred
    obtain ⟨j, hj, hget⟩ := List.mem_iff_getElem.mp hq
    rw [List.getElem_set] at hget
    by_cases hij : i = j
    · rw [if_pos hij] at hget
      exact hget.symm
    · rw [if_neg hij] at hget
      have hjlen : j < ps.length := by simpa using hj
      have hmapi : i < (ps.map (·.symbol)).length := by simpa using hi
      have hmapj : j < (ps.map (·.symbol)).length := by simpa using hjlen
      have heq : (ps.map (·.symbol))[i] = (ps.map (·.symbol))[j] := by
        rw [List.getElem_map, List.getElem_map, hpred, hget, hsym]
      exact absurd ((h.getElem_inj_iff).mp heq) hij

lemma removePosition_absent {ps : List PositionRisk} {s : SymbolType}
    (h : ∀ q ∈ ps, q.symbol ≠ s) : removePosition ps s = ps := by
  unfold removePosition
  exact List.filter_eq_self.mpr fun q hq => decide_eq_true (h q hq)

lemma removePosition_idempotent (ps : List PositionRisk) (s : SymbolType) :
    removePosition (removePosition ps s) s = removePosition ps s := by
  apply removePosition_absent
  intro q hq
  have := List.of_mem_filter hq
  simpa using this

/-! ## Theorems for claims about the risk engine and ledger -/

/-- C9: starting from the empty ledger, any sequence of `addOrUpdatePosition`
and `removePosition` operations leaves at most one tracked `PositionRisk`
entry per symbol; `addOrUpdatePosition` wholly replaces an existing entry
with the same symbol (upsert, not merge), and `removePosition` is idempotent
(removing an absent symbol leaves the ledger unchanged). -/
theorem ledger_at_most_one_entry_per_symbol :
    (∀ ops : List LedgerOp, uniquePerSymbol (applyLedgerOps ops)) ∧
    (∀ (ps : List PositionRisk) (p : PositionRisk), uniquePerSymbol ps →
      ∀ q ∈ addOrUpdatePosition ps p, q.symbol = p.symbol → q = p) ∧
    (∀ (ps : List PositionRisk) (s : SymbolType), (∀ q ∈ ps, q.symbol ≠ s) →
      removePosition ps s = ps) ∧
    (∀ (ps : List PositionRisk) (s : SymbolType),
      removePosition (removePosition ps s) s = removePosition ps s) := by
  refine ⟨fun ops => ?_, fun ps p h => addOrUpdatePosition_replaces h,
    fun ps s h => removePosition_absent h, removePosition_idempotent⟩
  exact applyLedgerOps_go_uniquePerSymbol ops [] (by simp [uniquePerSymbol])

/-- A sample tracked position used to instantiate ledger theorems. -/
def samplePositionBTC : PositionRisk :=
  { symbol := .BTC, entryPrice := 50000, currentPrice := 50000, quantity := 1/10
    leverage := 10, stopLoss := some 48000, unrealizedPnl := 0
    riskUsd := 2000, riskPercentage := 1/5 }

/-- A second sample tracked position (same symbol, different data). -/
def samplePositionBTC2 : PositionRisk :=
  { symbol := .BTC, entryPrice := 51000, currentPrice := 51000, quantity := 1/5
    leverage := 5, stopLoss := some 50000, unrealizedPnl := 0
    riskUsd := 1000, riskPercentage := 1/10 }

theorem ledger_at_most_one_entry_per_symbol_witness :
    uniquePerSymbol
      (applyLedgerOps [LedgerOp.add samplePositionBTC, LedgerOp.add samplePositionBTC2,
        LedgerOp.remove SymbolType.ETH]) ∧
    removePosition [samplePositionBTC] SymbolType.ETH = [samplePositionBTC] :=
  ⟨ledger_at_most_one_entry_per_symbol.1 _,
    ledger_at_most_one_entry_per_symbol.2.2.1 [samplePositionBTC] SymbolType.ETH
      (by decide)⟩

/-- C7: for positive `entryPrice`, `stopLoss ≠ entryPrice`, positive capital
and leverage (and positive configured bounds), `calculatePositionSize`
returns `min(maxSharesByRisk, maxSharesByCapital) × confidenceMultiplier`
with `maxSharesByRisk = availableCapital * maxRiskPerTrade / |entry - stop|`,
`maxSharesByCapital = maxPositionSizeUSD * leverage / entry`, and
`confidenceMultiplier c = 0.3 + 0.7 c`; the result is positive (never zeroed
for low confidence) and monotone in confidence. -/
theorem calculatePositionSize_spec (rp : RiskParameters)
    (cap e s c lev : ℚ)
    (hcap : 0 < cap) (he : 0 < e) (hes : s ≠ e) (hlev : 0 < lev)
    (hrpt : 0 < rp.maxRiskPerTrade) (hmps : 0 < rp.maxPositionSizeUSD)
    (hc0 : 0 ≤ c) (_hc1 : c ≤ 1) :
    calculatePositionSize rp cap e s c lev =
      min (cap * rp.maxRiskPerTrade / |e - s|) (rp.maxPositionSizeUSD * lev / e) *
        (3/10 + c * (7/10)) ∧
    0 < calculatePositionSize rp cap e s c lev ∧
    (∀ c', c ≤ c' →
      calculatePositionSize rp cap e s c lev ≤ calculatePositionSize rp cap e s c' lev) := by
  have habs : 0 < |e - s| := abs_pos.mpr (sub_ne_zero.mpr (Ne.symm hes))
  have hrisk : 0 < cap * rp.maxRiskPerTrade / |e - s| :=
    div_pos (mul_pos hcap hrpt) habs
  have hcapsh : 0 < rp.maxPositionSizeUSD * lev / e :=
    div_pos (mul_pos hmps hlev) he
  have hmin : 0 < min (cap * rp.maxRiskPerTrade / |e - s|) (rp.maxPositionSizeUSD * lev / e) :=
    lt_min hrisk hcapsh
  have hmult : (0:ℚ) < 3/10 + c * (7/10) := by positivity
  have hval : 0 < min (cap * rp.maxRiskPerTrade / |e - s|) (rp.maxPositionSizeUSD * lev / e) *
      (3/10 + c * (7/10)) := mul_pos hmin hmult
  have heq : calculatePositionSize rp cap e s c lev =
      min (cap * rp.maxRiskPerTrade / |e - s|) (rp.maxPositionSizeUSD * lev / e) *
        (3/10 + c * (7/10)) := by
    unfold calculatePositionSize
    exact max_eq_right hval.le
  refine ⟨heq, heq ▸ hval, fun c' hcc' => ?_⟩
  have heq' : calculatePositionSize rp cap e s c' lev =
      min (cap * rp.maxRiskPerTrade / |e - s|) (rp.maxPositionSizeUSD * lev / e) *
        (3/10 + c' * (7/10)) := by
    have hmult' : (0:ℚ) < 3/10 + c' * (7/10) := by
      have : (0:ℚ) ≤ c' := hc0.trans hcc'
      positivity
    unfold calculatePositionSize
    exact max_eq_right (mul_pos hmin hmult').le
  rw [heq, heq']
  apply mul_le_mul_of_nonneg_left _ hmin.le
  have : c * (7/10) ≤ c' * (7/10) := by
    apply mul_le_mul_of_nonneg_right hcc'
    norm_num
  linarith

theorem calculatePositionSize_spec_witness :
    calculatePositionSize defaultRiskParameters 10000 100 97 (1/2) 2 =
      min (10000 * defaultRiskParameters.maxRiskPerTrade / |100 - 97|)
        (defaultRiskParameters.maxPositionSizeUSD * 2 / 100) * (3/10 + (1/2) * (7/10)) :=
  (calculatePositionSize_spec defaultRiskParameters 10000 100 97 (1/2) 2
    (by norm_num) (by norm_num) (by norm_num) (by norm_num)
    (by norm_num [defaultRiskParameters]) (by norm_num [defaultRiskParameters])
    (by norm_num) (by norm_num)).1

/-- A ledger state whose daily PnL breaches the configured max daily loss. -/
def haltBreachState : RiskManagerState :=
  { riskParameters := defaultRiskParameters, dailyPnl := -2000000, openPositions := [] }

/-- C6 counterexample: a state whose cumulative daily PnL breaches the
configured max-daily-loss, yet `shouldHaltTrading` still returns `false`
(the claim requires `true` there). -/
theorem shouldHaltTrading_ignores_daily_loss_breach :
    haltBreachState.dailyPnl < -haltBreachState.riskParameters.maxDailyLoss ∧
    shouldHaltTrading haltBreachState = false := by
  exact ⟨by decide, rfl⟩

/-- C6 amended: `shouldHaltTrading` is hard-wired to `false`; it ignores the
ledger state entirely (daily PnL and aggregate open risk are never consulted),
so trading is never halted. -/
theorem shouldHaltTrading_always_false (rm : RiskManagerState) :
    shouldHaltTrading rm = false :=
  rfl

/-! ## Venue model

Orders placed on the venue are recorded in a trace; venue reads are served
by a deterministic environment. -/

/-- Order types used by the system. -/
inductive OrderType
  | market
  | limit
  | stopMarket
  | takeProfitMarket
deriving DecidableEq, Repr

/-- Order side. -/
inductive OrderSide
  | buy
  | sell
deriving DecidableEq, Repr

/-- The entry order type of the standalone buy/sell modules
(TS union "market" | "limit"). -/
inductive EntryOrderType
  | market
  | limit
deriving DecidableEq, Repr

/-- View an entry order type as a venue order type. -/
def EntryOrderType.toOrderType : EntryOrderType → OrderType
  | .market => .market
  | .limit => .limit

/-- An order successfully placed on the venue: the arguments of a
`createOrder` / `createMarketSellOrder` / `createMarketBuyOrder` call,
with the `params` bag (`stopPrice`, `reduceOnly`, `positionSide`) inlined. -/
structure VenueOrder where
  symbol : String
  otype : OrderType
  side : OrderSide
  amount : ℚ
  price : Option ℚ := none
  stopPrice : Option ℚ := none
  reduceOnly : Bool := false
  positionSide : Option String := none
deriving DecidableEq, Repr

/-- The venue's reply to a successful order placement (the fields the
source reads from the ccxt order object). -/
structure OrderResp where
  id : ℕ := 1
  price : Option ℚ := none
  average : Option ℚ := none
  cost : Option ℚ := none
  filled : Option ℚ := none
  status : String := "closed"
  timestamp : Option ℕ := none
deriving DecidableEq, Repr

/-- A venue-reported position (the fields the source reads). -/
structure PositionData where
  symbol : String
  contracts : ℚ
deriving DecidableEq, Repr

/-- A per-coin balance entry (`free` / `used`). -/
structure BalanceInfo where
  free : ℚ := 0
  used : ℚ := 0
deriving DecidableEq, Repr

/-- The deterministic venue environment: what reads return, and whether
order placements succeed.  A read the source recovers from with degraded
defaults (a caught `fetchPositions`, a missing balance entry) is modelled
by the environment holding the degenerate data, which drives the source
down the same branch. -/
structure Env where
  tickerOk : Bool := true
  tickerLast : Option ℚ := none
  tickerClose : Option ℚ := none
  positions : List PositionData := []
  coinBalance : SymbolType → BalanceInfo := fun _ => {}
  createOrderOk : Bool := true
  orderResp : OrderResp := {}
  stopOrderOk : Bool := true
  takeProfitOrderOk : Bool := true

/-- `Number(x)` on a possibly-undefined numeric field.  `Number(undefined)`
is `NaN` in JavaScript; the modelled paths only reach this under a
hypothesis that the value was actually fetched, so `0` stands in. -/
def jsNumber (x : Option ℚ) : ℚ :=
  x.getD 0

/-! ## The standalone buy module (`buy` / `placeStopLoss` / `placeTakeProfit`)
and the standalone sell module (`sell`), which share `validateLeverage` and
`normalizeSymbol` verbatim. -/

/-- `validateLeverage` (identical in both standalone modules): clamp to
`[1, 20]`, flooring in-range values to an integer. -/
def validateLeverage (leverage : ℚ) : ℚ :=
  if leverage < 1 then 1
  else if leverage > 20 then 20
  else (⌊leverage⌋ : ℚ)

/-- `normalizeSymbol` (identical in both standalone modules): suffix the
quote currency when the pair separator is absent. -/
def normalizeSymbol (symbol : String) : String :=
  if symbol.contains '/' then symbol else symbol ++ "/USDT"

/-- `placeStopLoss` (both standalone modules state the same opposite-side
rule, one written as `side === "buy" ? "sell" : "buy"`, the other mirrored):
a reduce-only `STOP_MARKET` order on the side opposite to the entry.
Returns the order id, or `none` when the venue rejects it (the source
swallows the error). -/
def placeStopLoss (env : Env) (symbol : String) (amount stopPrice : ℚ)
    (side : OrderSide) : Option ℕ × List VenueOrder :=
  let stopSide := if side = OrderSide.buy then OrderSide.sell else OrderSide.buy
  if env.stopOrderOk then
    (some env.orderResp.id,
      [{ symbol := symbol, otype := OrderType.stopMarket, side := stopSide,
         amount := amount, stopPrice := some stopPrice, reduceOnly := true }])
  else (none, [])

/-- `placeTakeProfit` (both standalone modules): a reduce-only
`TAKE_PROFIT_MARKET` order on the side opposite to the entry. -/
def placeTakeProfit (env : Env) (symbol : String) (amount profitPrice : ℚ)
    (side : OrderSide) : Option ℕ × List VenueOrder :=
  let profitSide := if side = OrderSide.buy then OrderSide.sell else OrderSide.buy
  if env.takeProfitOrderOk then
    (some env.orderResp.id,
      [{ symbol := symbol, otype := OrderType.takeProfitMarket, side := profitSide,
         amount := amount, stopPrice := some profitPrice, reduceOnly := true }])
  else (none, [])

/-- `BuyOptions` of the standalone buy module. -/
structure BuyOptions where
  symbol : String
  amount : Option ℚ := none
  cost : Option ℚ := none
  leverage : Option ℚ := none
  orderType : Option EntryOrderType := none
  price : Option ℚ := none
  stopLoss : Option ℚ := none
  takeProfit : Option ℚ := none
  reduceOnly : Bool := false
  positionSide : Option String := none

/-- `BuyResult` of the standalone buy module (`otype` models the TS field
named `type`). -/
structure BuyResult where
  success : Bool
  orderId : Option ℕ := none
  symbol : String
  side : String
  otype : EntryOrderType
  amount : ℚ
  price : Option ℚ := none
  cost : Option ℚ := none
  leverage : Option ℚ := none
  stopLossOrderId : Option ℕ := none
  takeProfitOrderId : Option ℕ := none
  error : Option String := none
deriving DecidableEq, Repr

/-- The catch branch of `buy`: a failure result carrying the thrown message;
no order was placed. -/
def buyFail (options : BuyOptions) (symbol : String) (msg : String) :
    BuyResult × List VenueOrder :=
  ({ success := false, symbol := symbol, side := "buy",
     otype := options.orderType.getD EntryOrderType.market,
     amount := jsOr options.amount 0, error := some msg }, [])

/-- The tail of `buy` after the entry order succeeded: place the optional
protective orders and assemble the success result. -/
def buyAfterEntry (env : Env) (options : BuyOptions) (symbol : String)
    (leverage : ℚ) (t : EntryOrderType) (orderAmount : ℚ) (limitPrice : Option ℚ) :
    BuyResult × List VenueOrder :=
  let entryOrder : VenueOrder :=
    { symbol := symbol, otype := t.toOrderType, side := OrderSide.buy,
      amount := orderAmount, price := limitPrice,
      reduceOnly := options.reduceOnly, positionSide := options.positionSide }
  let sl := if truthy options.stopLoss then
      placeStopLoss env symbol orderAmount (options.stopLoss.getD 0) OrderSide.buy
    else (none, [])
  let tp := if truthy options.takeProfit then
      placeTakeProfit env symbol orderAmount (options.takeProfit.getD 0) OrderSide.buy
    else (none, [])
  ({ success := true, orderId := some env.orderResp.id, symbol := symbol,
     side := "buy", otype := t, amount := orderAmount,
     price := jsOrOpt env.orderResp.price env.orderResp.average,
     cost := env.orderResp.cost, leverage := some leverage,
     stopLossOrderId := sl.1, takeProfitOrderId := tp.1 },
    entryOrder :: (sl.2 ++ tp.2))

/-- The order-placement step of `buy`: limit orders need a price, and a
venue rejection of the entry order aborts the trade. -/
def buyPlaceOrder (env : Env) (options : BuyOptions) (symbol : String)
    (leverage : ℚ) (t : EntryOrderType) (orderAmount : ℚ) :
    BuyResult × List VenueOrder :=
  match t with
  | .limit =>
    match options.price with
    | none => buyFail options symbol "Price must be specified for limit orders"
    | some p =>
      if env.createOrderOk then buyAfterEntry env options symbol leverage .limit orderAmount (some p)
      else buyFail options symbol "Order placement rejected by the venue"
  | .market =>
    if env.createOrderOk then buyAfterEntry env options symbol leverage .market orderAmount none
    else buyFail options symbol "Order placement rejected by the venue"

/-- `buy` of the standalone buy module.  `setLeverage` / `setMarginMode`
failures are swallowed in the source and place no orders, so they do not
appear in the trace.  Amount determination follows the source: an explicit
(truthy) `amount` verbatim, else the cost-based formula
`cost * leverage / currentPrice`, else a thrown error. -/
def buy (env : Env) (options : BuyOptions) : BuyResult × List VenueOrder :=
  let symbol := normalizeSymbol options.symbol
  let leverage := validateLeverage (jsOr options.leverage 1)
  let orderType := options.orderType.getD EntryOrderType.market
  if truthy options.amount then
    buyPlaceOrder env options symbol leverage orderType (options.amount.getD 0)
  else if truthy options.cost then
    if env.tickerOk then
      let currentPrice := jsNumber env.tickerLast
      buyPlaceOrder env options symbol leverage orderType
        (options.cost.getD 0 * leverage / currentPrice)
    else buyFail options symbol "Failed to fetch ticker"
  else buyFail options symbol "Either 'amount' or 'cost' must be specified"

/-- `SellOptions` of the standalone sell module. -/
structure SellOptions where
  symbol : String
  amount : Option ℚ := none
  cost : Option ℚ := none
  leverage : Option ℚ := none
  orderType : Option EntryOrderType := none
  price : Option ℚ := none
  stopLoss : Option ℚ := none
  takeProfit : Option ℚ := none
  reduceOnly : Bool := false
  positionSide : Option String := none
  closePosition : Bool := false

/-- `SellResult` of the standalone sell module. -/
structure SellResult where
  success : Bool
  orderId : Option ℕ := none
  symbol : String
  side : String
  otype : EntryOrderType
  amount : ℚ
  price : Option ℚ := none
  cost : Option ℚ := none
  leverage : Option ℚ := none
  stopLossOrderId : Option ℕ := none
  takeProfitOrderId : Option ℕ := none
  error : Option String := none
deriving DecidableEq, Repr

/-- `getCurrentPosition` of the standalone sell module: the contracts of the
venue position for the symbol, `0` when absent, falsy or unavailable. -/
def getCurrentPosition (env : Env) (symbol : String) : ℚ :=
  match env.positions.find? (fun p => p.symbol == symbol) with
  | some p => if p.contracts = 0 then 0 else p.contracts
  | none => 0

/-- The catch branch of `sell`. -/
def sellFail (options : SellOptions) (symbol : String) (msg : String) :
    SellResult × List VenueOrder :=
  ({ success := false, symbol := symbol, side := "sell",
     otype := options.orderType.getD EntryOrderType.market,
     amount := jsOr options.amount 0, error := some msg }, [])

/-- The tail of `sell` after the entry order succeeded: protective orders
are placed only when opening (not when closing), then the success result. -/
def sellAfterEntry (env : Env) (options : SellOptions) (symbol : String)
    (leverage : ℚ) (t : EntryOrderType) (orderAmount : ℚ) (limitPrice : Option ℚ)
    (reduceOnly : Bool) : SellResult × List VenueOrder :=
  let entryOrder : VenueOrder :=
    { symbol := symbol, otype := t.toOrderType, side := OrderSide.sell,
      amount := orderAmount, price := limitPrice,
      reduceOnly := reduceOnly, positionSide := options.positionSide }
  let sl := if !options.closePosition && truthy options.stopLoss then
      placeStopLoss env symbol orderAmount (options.stopLoss.getD 0) OrderSide.sell
    else (none, [])
  let tp := if !options.closePosition && truthy options.takeProfit then
      placeTakeProfit env symbol orderAmount (options.takeProfit.getD 0) OrderSide.sell
    else (none, [])
  ({ success := true, orderId := some env.orderResp.id, symbol := symbol,
     side := "sell", otype := t, amount := orderAmount,
     price := jsOrOpt env.orderResp.price env.orderResp.average,
     cost := env.orderResp.cost, leverage := some leverage,
     stopLossOrderId := sl.1, takeProfitOrderId := tp.1 },
    entryOrder :: (sl.2 ++ tp.2))

/-- The order-placement step of `sell`. -/
def sellPlaceOrder (env : Env) (options : SellOptions) (symbol : String)
    (leverage : ℚ) (t : EntryOrderType) (orderAmount : ℚ) (reduceOnly : Bool) :
    SellResult × List VenueOrder :=
  match t with
  | .limit =>
    match options.price with
    | none => sellFail options symbol "Price must be specified for limit orders"
    | some p =>
      if env.createOrderOk then
        sellAfterEntry env options symbol leverage .limit orderAmount (some p) reduceOnly
      else sellFail options symbol "Order placement rejected by the venue"
  | .market =>
    if env.createOrderOk then
      sellAfterEntry env options symbol leverage .market orderAmount none reduceOnly
    else sellFail options symbol "Order placement rejected by the venue"

/-- `sell` of the standalone sell module.  The three amount sources in
source order: close an existing position (must exist and be long), an
explicit truthy `amount` verbatim, or the cost-based formula
`cost * leverage / currentPrice`. -/
def sell (env : Env) (options : SellOptions) : SellResult × List VenueOrder :=
  let symbol := normalizeSymbol options.symbol
  let orderType := options.orderType.getD EntryOrderType.market
  if options.closePosition then
    let currentPosition := getCurrentPosition env symbol
    if currentPosition = 0 then
      sellFail options symbol ("No open position found for " ++ symbol)
    else if currentPosition < 0 then
      sellFail options symbol "Cannot close short position with sell"
    else
      sellPlaceOrder env options symbol 1 orderType |currentPosition| true
  else if truthy options.amount then
    sellPlaceOrder env options symbol (validateLeverage (jsOr options.leverage 1))
      orderType (options.amount.getD 0) options.reduceOnly
  else if truthy options.cost then
    if env.tickerOk then
      let leverage := validateLeverage (jsOr options.leverage 1)
      let currentPrice := jsNumber env.tickerLast
      sellPlaceOrder env options symbol leverage orderType
        (options.cost.getD 0 * leverage / currentPrice) options.reduceOnly
    else sellFail options symbol "Failed to fetch ticker"
  else
    sellFail options symbol "Either 'amount', 'cost', or 'closePosition' must be specified"

/-- C1: for every entry request with no (truthy) explicit amount but a cost
(margin in quote currency), a positive leverage and a fetched positive
current price, the order quantity computed by the standalone `buy` and
`sell` functions equals `cost * leverage / currentPrice` exactly, with the
leverage first clamped/floored into `[1, 20]` by `validateLeverage`; when an
explicit amount is given it is used verbatim. -/
theorem buy_sell_cost_quantity
    (env : Env) (bo : BuyOptions) (so : SellOptions)
    (p cb lb cs ls : ℚ)
    (htick : env.tickerOk = true) (hlast : env.tickerLast = some p) (_hp : 0 < p)
    (hord : env.createOrderOk = true)
    (hbam : truthy bo.amount = false)
    (hbc : bo.cost = some cb) (hbc0 : 0 < cb)
    (hbl : bo.leverage = some lb) (hbl0 : 0 < lb)
    (hbt : bo.orderType ≠ some EntryOrderType.limit)
    (hscl : so.closePosition = false)
    (hsam : truthy so.amount = false)
    (hsc : so.cost = some cs) (hsc0 : 0 < cs)
    (hsl : so.leverage = some ls) (hsl0 : 0 < ls)
    (hst : so.orderType ≠ some EntryOrderType.limit) :
    ((buy env bo).1.success = true ∧
      (buy env bo).1.amount = cb * validateLeverage lb / p) ∧
    ((sell env so).1.success = true ∧
      (sell env so).1.amount = cs * validateLeverage ls / p) ∧
    (∀ (bo2 : BuyOptions) (a : ℚ), bo2.amount = some a → a ≠ 0 →
      bo2.orderType ≠ some EntryOrderType.limit →
      (buy env bo2).1.success = true ∧ (buy env bo2).1.amount = a) ∧
    (∀ (so2 : SellOptions) (a : ℚ), so2.closePosition = false →
      so2.amount = some a → a ≠ 0 →
      so2.orderType ≠ some EntryOrderType.limit →
      (sell env so2).1.success = true ∧ (sell env so2).1.amount = a) := by
  have getDmarket : ∀ (o : Option EntryOrderType), o ≠ some EntryOrderType.limit →
      o.getD EntryOrderType.market = EntryOrderType.market := by
    intro o ho
    cases o with
    | none => rfl
    | some t => cases t with
      | market => rfl
      | limit => exact absurd rfl ho
  refine ⟨?_, ?_, ?_, ?_⟩
  · have hbcost : truthy bo.cost = true := by simp [hbc, truthy, hbc0.ne']
    have hblev : jsOr bo.leverage 1 = lb := by simp [hbl, jsOr, truthy, hbl0.ne']
    unfold buy
    simp only [hbam, Bool.false_eq_true, if_false, hbcost, if_true, htick, hlast,
      hblev, getDmarket bo.orderType hbt, jsNumber, Option.getD_some, hbc]
    simp [buyPlaceOrder, buyAfterEntry, hord, truthy, hbc0.ne']
  · have hscost : truthy so.cost = true := by simp [hsc, truthy, hsc0.ne']
    have hslev : jsOr so.leverage 1 = ls := by simp [hsl, jsOr, truthy, hsl0.ne']
    unfold sell
    simp only [hscl, Bool.false_eq_true, if_false, hsam, hscost, if_true, htick, hlast,
      hslev, getDmarket so.orderType hst, jsNumber, Option.getD_some, hsc]
    simp [sellPlaceOrder, sellAfterEntry, hord, truthy, hsc0.ne']
  · intro bo2 a ha ha0 ht2
    have hbam2 : truthy bo2.amount = true := by simp [ha, truthy, ha0]
    unfold buy
    simp only [hbam2, if_true, getDmarket bo2.orderType ht2, ha, Option.getD_some]
    simp [buyPlaceOrder, buyAfterEntry, hord, truthy, ha0]
  · intro so2 a hcl2 ha ha0 ht2
    have hsam2 : truthy so2.amount = true := by simp [ha, truthy, ha0]
    unfold sell
    simp only [hcl2, Bool.false_eq_true, if_false, hsam2, if_true,
      getDmarket so2.orderType ht2, ha, Option.getD_some]
    simp [sellPlaceOrder, sellAfterEntry, hord, truthy, ha0]

/-- The venue environment of the specification scenario: current price 50000. -/
def envSpecScenario : Env :=
  { tickerLast := some 50000 }

/-- The buy request of the specification scenario: cost 500 at 10x. -/
def buySpecScenario : BuyOptions :=
  { symbol := "BTC", cost := some 500, leverage := some 10 }

/-- A short-entry request sized by cost: cost 200 at 4x. -/
def sellSpecScenario : SellOptions :=
  { symbol := "ETH", cost := some 200, leverage := some 4 }

theorem buy_sell_cost_quantity_witness :
    (buy envSpecScenario buySpecScenario).1.amount = 500 * validateLeverage 10 / 50000 ∧
    (sell envSpecScenario sellSpecScenario).1.amount = 200 * validateLeverage 4 / 50000 :=
  have h := buy_sell_cost_quantity envSpecScenario buySpecScenario sellSpecScenario
    50000 500 10 200 4 rfl rfl (by norm_num) rfl rfl rfl (by norm_num) rfl
    (by norm_num) (by decide) rfl rfl rfl (by norm_num) rfl (by norm_num) (by decide)
  ⟨h.1.2, h.2.1.2⟩

/-! ## The position-ops module used by the execution service
(`executeSellOrder`, `closePosition`, `setStopLossAndTakeProfit`) -/

/-- Result shape shared by `executeSellOrder`, `closePosition` and
`executeBuyOrder` (the optional fields cover the unions of the TS result
objects; fields a function does not set stay `none`). -/
structure OrderOpResult where
  success : Bool
  orderId : Option ℕ := none
  symbol : String
  side : Option String := none
  quantity : Option ℚ := none
  price : Option ℚ := none
  executedQuantity : Option ℚ := none
  closedPosition : Option Bool := none
  error : Option String := none
deriving DecidableEq, Repr

/-- `SellOrderParams` of the position-ops module. -/
structure SellOrderParams where
  symbol : SymbolType
  quantity : Option ℚ := none
  price : Option ℚ := none
  percentage : Option ℚ := none
deriving DecidableEq, Repr

/-- `executeSellOrder` of the position-ops module: a market/limit SELL sized
by an explicit quantity or by a percentage of the free balance; an invalid
(falsy or non-positive) quantity is rejected before any venue call. -/
def executeSellOrder (env : Env) (params : SellOrderParams) :
    OrderOpResult × List VenueOrder :=
  let binanceSymbol := params.symbol.name ++ "/USDT"
  let fail : String → OrderOpResult × List VenueOrder := fun msg =>
    ({ success := false, symbol := binanceSymbol, quantity := params.quantity,
       price := params.price, error := some msg }, [])
  let placeWith : ℚ → OrderOpResult × List VenueOrder := fun sellQuantity =>
    if env.createOrderOk then
      ({ success := true, orderId := some env.orderResp.id, symbol := binanceSymbol,
         side := some "SELL", quantity := some sellQuantity,
         price := some (jsOr params.price (jsOr env.orderResp.price 0)),
         executedQuantity := some (jsOr env.orderResp.filled 0) },
        [{ symbol := binanceSymbol,
           otype := if truthy params.price then OrderType.limit else OrderType.market,
           side := OrderSide.sell, amount := sellQuantity,
           price := if truthy params.price then params.price else none }])
    else fail "Order placement rejected by the venue"
  let proceed : Option ℚ → OrderOpResult × List VenueOrder := fun sellQuantity =>
    if truthy sellQuantity = false ∨ sellQuantity.getD 0 ≤ 0 then
      fail "Invalid sell quantity"
    else placeWith (sellQuantity.getD 0)
  if truthy params.percentage = true ∧ truthy params.quantity = false then
    let free := (env.coinBalance params.symbol).free
    if free > 0 then proceed (some (free * (params.percentage.getD 0 / 100)))
    else fail "No open position found for this symbol"
  else proceed params.quantity

/-- `closePosition` of the position-ops module: find the live futures
position under either symbol format; with none, fall back to the coin
balance (spot) and fail when that is empty too; with a live position,
derive the closing side from the SIGN of `contracts` (long closes with a
market SELL, short with a market BUY) sized `|contracts|`. -/
def closePosition (env : Env) (symbol : SymbolType) :
    OrderOpResult × List VenueOrder :=
  let binanceSymbol := symbol.name ++ "/USDT"
  let futuresSymbol := symbol.name ++ "/USDT:USDT"
  let position := env.positions.find? (fun p =>
    (p.symbol == binanceSymbol || p.symbol == futuresSymbol) && decide (p.contracts ≠ 0))
  match position with
  | none =>
    let bal := env.coinBalance symbol
    let totalBalance := bal.free + bal.used
    if totalBalance ≤ 0 then
      ({ success := false, symbol := symbol.name,
         error := some "No position found for this symbol",
         closedPosition := some false }, [])
    else if env.createOrderOk then
      ({ success := true, orderId := some env.orderResp.id, symbol := binanceSymbol,
         side := some "SELL", quantity := some totalBalance,
         price := some (jsOr env.orderResp.price 0),
         executedQuantity := some (jsOr env.orderResp.filled 0),
         closedPosition := some true },
        [{ symbol := binanceSymbol, otype := OrderType.market,
           side := OrderSide.sell, amount := totalBalance }])
    else
      ({ success := false, symbol := symbol.name,
         error := some "Order placement rejected by the venue",
         closedPosition := some false }, [])
  | some p =>
    let contracts := p.contracts
    let isLongPosition := 0 < contracts
    let closeQuantity := |contracts|
    let orderSymbol := p.symbol
    if env.createOrderOk then
      ({ success := true, orderId := some env.orderResp.id, symbol := orderSymbol,
         side := some (if isLongPosition then "SELL" else "BUY"),
         quantity := some closeQuantity,
         price := some (jsOr env.orderResp.price 0),
         executedQuantity := some (jsOr env.orderResp.filled 0),
         closedPosition := some true },
        [{ symbol := orderSymbol, otype := OrderType.market,
           side := if isLongPosition then OrderSide.sell else OrderSide.buy,
           amount := closeQuantity }])
    else
      ({ success := false, symbol := symbol.name,
         error := some "Order placement rejected by the venue",
         closedPosition := some false }, [])

/-- Result of `setStopLossAndTakeProfit`. -/
structure SLTPResult where
  success : Bool
  symbol : SymbolType
  error : Option String := none
deriving DecidableEq, Repr

/-- `setStopLossAndTakeProfit` of the position-ops module: reads the coin
balance; with no balance it fails ("No position found for this symbol");
otherwise it only RECORDS the levels for monitoring (the source pushes
notes "Stop loss level saved for monitoring" / "Take profit level saved
for monitoring") — it places NO venue order in either case.  The level
arguments only feed those notes, hence the underscores. -/
def setStopLossAndTakeProfit (env : Env) (symbol : SymbolType)
    (_stopLoss _takeProfit : Option ℚ) : SLTPResult × List VenueOrder :=
  let bal := env.coinBalance symbol
  let totalBalance := bal.free + bal.used
  if totalBalance ≤ 0 then
    ({ success := false, symbol := symbol,
       error := some "No position found for this symbol" }, [])
  else
    ({ success := true, symbol := symbol }, [])

/-! ## The execution service (`TradingExecutionService` and
`executeBuyOrder` of its buy module) -/

/-- `BuyOrderParams` of the execution-service buy module. -/
structure BuyOrderParams where
  symbol : SymbolType
  quantity : ℚ
  price : Option ℚ := none
  leverage : ℚ := 1
deriving DecidableEq, Repr

/-- `executeBuyOrder`: set leverage when above 1 (failures swallowed, no
order placed by that step), then a market/limit BUY of the requested
quantity. -/
def executeBuyOrder (env : Env) (params : BuyOrderParams) :
    OrderOpResult × List VenueOrder :=
  let binanceSymbol := params.symbol.name ++ "/USDT"
  if env.createOrderOk then
    ({ success := true, orderId := some env.orderResp.id, symbol := binanceSymbol,
       side := some "BUY", quantity := some params.quantity,
       price := some (jsOr params.price (jsOr env.orderResp.price 0)),
       executedQuantity := some (jsOr env.orderResp.filled 0) },
      [{ symbol := binanceSymbol,
         otype := if truthy params.price then OrderType.limit else OrderType.market,
         side := OrderSide.buy, amount := params.quantity,
         price := if truthy params.price then params.price else none }])
  else
    ({ success := false, symbol := binanceSymbol, quantity := some params.quantity,
       price := params.price, error := some "Order placement rejected by the venue" }, [])

/-- The four signal values of an `AIDecision`. -/
inductive Signal
  | buy_to_enter
  | sell_to_enter
  | hold
  | close
deriving DecidableEq, Repr

/-- `AIDecision` of the execution service (free-text fields that never
influence control flow are kept as plain strings). -/
structure AIDecision where
  signal : Signal
  coin : SymbolType
  quantity : Option ℚ := none
  leverage : ℚ := 1
  profit_target : Option ℚ := none
  stop_loss : Option ℚ := none
  confidence : ℚ := 1
  risk_usd : Option ℚ := none
  justification : String := ""
deriving DecidableEq, Repr

/-- The `execution` payload of a `TradeExecutionResult`
(`etype` models the TS field named `type`). -/
structure TradeExecution where
  orderId : Option ℕ := none
  executedPrice : Option ℚ := none
  executedQuantity : Option ℚ := none
  etype : String
deriving DecidableEq, Repr

/-- `TradeExecutionResult` of the execution service. -/
structure TradeExecutionResult where
  success : Bool
  decision : AIDecision
  execution : Option TradeExecution := none
  error : Option String := none
  warnings : List String := []
deriving DecidableEq, Repr

/-- The static fallback price table of
`TradingExecutionService.getCurrentPrice`. -/
def fallbackPrice : SymbolType → ℚ
  | .BTC => 45000
  | .ETH => 2500
  | .SOL => 100
  | .BNB => 300
  | .DOGE => 2/25
  | .XRP => 1/2

/-- `TradingExecutionService.getCurrentPrice`:
`ticker.last || ticker.close || 0`, the fallback table when the fetch
fails. -/
def getCurrentPrice (env : Env) (symbol : SymbolType) : ℚ :=
  if env.tickerOk then jsOr (jsOrOpt env.tickerLast env.tickerClose) 0
  else fallbackPrice symbol

/-- `TradingExecutionService.executeBuyToEnter`.  Risk controls are disabled
in the source; the quantity falls back to `availableCapital / currentPrice`
when the decision's quantity is falsy and the decision's leverage does not
enter that formula; protective levels are delegated to
`setStopLossAndTakeProfit`, whose failure becomes a warning while the
overall result stays successful; the ledger is updated with
`calculatePositionRisk`.  (`getCurrentATR` is also awaited in the source
but its value is only logged, so it is not modelled.)  Returns the result,
the updated ledger and the venue order trace. -/
def executeBuyToEnter (env : Env) (ledger : List PositionRisk)
    (decision : AIDecision) (availableCapital : ℚ) :
    TradeExecutionResult × List PositionRisk × List VenueOrder :=
  let currentPrice := getCurrentPrice env decision.coin
  let finalQuantity := jsOr decision.quantity (availableCapital / currentPrice)
  let finalLeverage := decision.leverage
  let buyR := executeBuyOrder env
    { symbol := decision.coin, quantity := finalQuantity, leverage := finalLeverage }
  if buyR.1.success = false then
    ({ success := false, decision := decision,
       error := some ("Buy order failed: " ++ buyR.1.error.getD "") }, ledger, buyR.2)
  else
    let sltpStep : List String × List VenueOrder :=
      if truthy decision.stop_loss || truthy decision.profit_target then
        let sltp := setStopLossAndTakeProfit env decision.coin
          decision.stop_loss decision.profit_target
        (if sltp.1.success = false then
            ["Failed to set stop loss/take profit: " ++ sltp.1.error.getD ""]
          else [], sltp.2)
      else ([], [])
    let entry := jsOrQ (buyR.1.price.getD 0) currentPrice
    let newPosition := calculatePositionRisk decision.coin entry entry
      finalQuantity finalLeverage decision.stop_loss availableCapital
    let exec : TradeExecution :=
      { orderId := buyR.1.orderId, executedPrice := buyR.1.price,
        executedQuantity := buyR.1.executedQuantity, etype := "BUY_TO_ENTER" }
    ({ success := true, decision := decision, execution := some exec,
       warnings := sltpStep.1 },
      addOrUpdatePosition ledger newPosition, buyR.2 ++ sltpStep.2)

/-- `TradingExecutionService.executeSellToEnter`: symmetric to the buy path;
the entry goes through `executeSellOrder` (which ignores the leverage field
of its params) and the ledger records a NEGATIVE quantity for the short. -/
def executeSellToEnter (env : Env) (ledger : List PositionRisk)
    (decision : AIDecision) (availableCapital : ℚ) :
    TradeExecutionResult × List PositionRisk × List VenueOrder :=
  let currentPrice := getCurrentPrice env decision.coin
  let finalQuantity := jsOr decision.quantity (availableCapital / currentPrice)
  let finalLeverage := decision.leverage
  let sellR := executeSellOrder env
    { symbol := decision.coin, quantity := some finalQuantity }
  if sellR.1.success = false then
    ({ success := false, decision := decision,
       error := some ("Short sell failed: " ++ sellR.1.error.getD "") }, ledger, sellR.2)
  else
    let sltpStep : List String × List VenueOrder :=
      if truthy decision.stop_loss || truthy decision.profit_target then
        let sltp := setStopLossAndTakeProfit env decision.coin
          decision.stop_loss decision.profit_target
        (if sltp.1.success = false then
            ["Failed to set stop loss/take profit: " ++ sltp.1.error.getD ""]
          else [], sltp.2)
      else ([], [])
    let entry := jsOrQ (sellR.1.price.getD 0) currentPrice
    let newPosition := calculatePositionRisk decision.coin entry entry
      (-finalQuantity) finalLeverage decision.stop_loss availableCapital
    let exec : TradeExecution :=
      { orderId := sellR.1.orderId, executedPrice := sellR.1.price,
        executedQuantity := sellR.1.executedQuantity, etype := "SELL_TO_ENTER" }
    ({ success := true, decision := decision, execution := some exec,
       warnings := sltpStep.1 },
      addOrUpdatePosition ledger newPosition, sellR.2 ++ sltpStep.2)

/-- `TradingExecutionService.executeClose`: delegate to `closePosition`; on
success remove the ledger entry for the coin. -/
def executeClose (env : Env) (ledger : List PositionRisk) (decision : AIDecision) :
    TradeExecutionResult × List PositionRisk × List VenueOrder :=
  let closeR := closePosition env decision.coin
  if closeR.1.success = false then
    ({ success := false, decision := decision,
       error := some ("Close position failed: " ++ closeR.1.error.getD "") },
      ledger, closeR.2)
  else
    let exec : TradeExecution :=
      { orderId := closeR.1.orderId, executedPrice := closeR.1.price,
        executedQuantity := closeR.1.executedQuantity, etype := "CLOSE" }
    ({ success := true, decision := decision, execution := some exec },
      removePosition ledger decision.coin, closeR.2)

/-! ## The account module's Sharpe computation (the revision fetching
BTC/USDT only, whose division is not guarded) -/

/-- A venue position as the account module reads it. -/
structure AccountPosition where
  initialMargin : Option ℚ := none
  contracts : Option ℚ := none
  unrealizedPnl : Option ℚ := none
deriving DecidableEq, Repr

/-- Division with the outcome JavaScript gives: `none` models the
non-finite `NaN` / `±Infinity` produced by a zero denominator. -/
def jsDiv (x y : ℚ) : Option ℚ :=
  if y = 0 then none else some (x / y)

/-- The Sharpe-ratio expression of `getAccountInformationAndPerformance`
(the unguarded revision): `currentTotalReturn / (totalUnrealizedPnl /
initialCapital)` with NO zero-denominator guard on the outer division.
The inner divisions stay total rationals: the claims exercise them only
with a non-zero `initialCapital`. -/
def accountSharpeRatio (positions : List AccountPosition)
    (totalCashValue initialCapital : ℚ) : Option ℚ :=
  let currentTotalReturn := (totalCashValue - initialCapital) / initialCapital
  let totalUnrealizedPnl :=
    positions.foldl (fun acc p => acc + p.unrealizedPnl.getD 0) 0
  jsDiv currentTotalReturn (totalUnrealizedPnl / initialCapital)

/-! ## Helper lemmas about the traces of the execution-service operations -/

lemma setStopLossAndTakeProfit_no_orders (env : Env) (sym : SymbolType)
    (sl tp : Option ℚ) : (setStopLossAndTakeProfit env sym sl tp).2 = [] := by
  unfold setStopLossAndTakeProfit
  dsimp only
  split <;> rfl

lemma executeBuyOrder_trace_types (env : Env) (params : BuyOrderParams) :
    ∀ o ∈ (executeBuyOrder env params).2,
      o.otype ≠ OrderType.stopMarket ∧ o.otype ≠ OrderType.takeProfitMarket := by
  intro o ho
  unfold executeBuyOrder at ho
  split at ho
  · simp only [List.mem_singleton] at ho
    subst ho
    constructor <;> split <;> simp
  · simp at ho

lemma executeSellOrder_trace_types (env : Env) (params : SellOrderParams) :
    ∀ o ∈ (executeSellOrder env params).2,
      o.otype ≠ OrderType.stopMarket ∧ o.otype ≠ OrderType.takeProfitMarket := by
  intro o ho
  unfold executeSellOrder at ho
  dsimp only at ho
  repeat' split at ho
  all_goals
    first
      | exact absurd ho (List.not_mem_nil o)
      | (rw [List.mem_singleton] at ho; subst ho; exact ⟨by simp, by simp⟩)


lemma executeBuyOrder_market_ok (env : Env) (coin : SymbolType) (q l : ℚ)
    (hord : env.createOrderOk = true) :
    executeBuyOrder env { symbol := coin, quantity := q, leverage := l } =
      ({ success := true, orderId := some env.orderResp.id, symbol := coin.name ++ "/USDT",
         side := some "BUY", quantity := some q,
         price := some (jsOr env.orderResp.price 0),
         executedQuantity := some (jsOr env.orderResp.filled 0) },
       [{ symbol := coin.name ++ "/USDT", otype := OrderType.market,
          side := OrderSide.buy, amount := q }]) := by
  unfold executeBuyOrder
  simp [hord, truthy, jsOr]

lemma executeSellOrder_pos_quantity (env : Env) (coin : SymbolType) (q : ℚ)
    (hq : 0 < q) (hord : env.createOrderOk = true) :
    executeSellOrder env { symbol := coin, quantity := some q } =
      ({ success := true, orderId := some env.orderResp.id, symbol := coin.name ++ "/USDT",
         side := some "SELL", quantity := some q,
         price := some (jsOr env.orderResp.price 0),
         executedQuantity := some (jsOr env.orderResp.filled 0) },
       [{ symbol := coin.name ++ "/USDT", otype := OrderType.market,
          side := OrderSide.sell, amount := q }]) := by
  unfold executeSellOrder
  simp [truthy, hq.ne', not_le.mpr hq, hord, jsOr]


/-! ## Theorems for claims about the execution service -/

/-- C2 counterexample: a buy_to_enter decision carrying both a stop-loss and
a profit target whose entry order succeeds, yet the complete venue order
trace of the execution service is the single market entry order — no
reduce-only STOP_MARKET or TAKE_PROFIT_MARKET order is placed (the claim
requires both). -/
def envEntryOnly : Env := { tickerLast := some 100 }

def decisionWithStops : AIDecision :=
  { signal := .buy_to_enter, coin := .BTC, quantity := some 1, leverage := 5,
    stop_loss := some 90, profit_target := some 110 }

theorem executeBuyToEnter_no_protective_orders_example :
    (executeBuyToEnter envEntryOnly [] decisionWithStops 1000).1.success = true ∧
    truthy decisionWithStops.stop_loss = true ∧
    truthy decisionWithStops.profit_target = true ∧
    (executeBuyToEnter envEntryOnly [] decisionWithStops 1000).2.2 =
      [{ symbol := SymbolType.BTC.name ++ "/USDT", otype := OrderType.market,
         side := OrderSide.buy, amount := 1 }] := by
  refine ⟨rfl, rfl, rfl, ?_⟩
  have hfq : jsOr decisionWithStops.quantity
      (1000 / getCurrentPrice envEntryOnly decisionWithStops.coin) = 1 := by
    simp [decisionWithStops, jsOr, truthy]
  unfold executeBuyToEnter
  dsimp only
  rw [hfq, executeBuyOrder_market_ok envEntryOnly decisionWithStops.coin _ _ rfl]
  simp [decisionWithStops, truthy, setStopLossAndTakeProfit_no_orders]

/-- C2 amended: the execution service places NO protective conditional
orders on the venue for buy_to_enter or sell_to_enter decisions — its
`setStopLossAndTakeProfit` only records the levels for monitoring; the
reduce-only STOP_MARKET / TAKE_PROFIT_MARKET orders (opposite side,
triggered at the stop-loss / profit-target price) are placed only by the
standalone `buy`/`sell` helpers via `placeStopLoss` / `placeTakeProfit`,
which the execution service never invokes. -/
theorem execution_service_places_no_conditional_orders
    (env : Env) (ledger : List PositionRisk) (decision : AIDecision) (capital : ℚ) :
    (∀ o ∈ (executeBuyToEnter env ledger decision capital).2.2,
      o.otype ≠ OrderType.stopMarket ∧ o.otype ≠ OrderType.takeProfitMarket) ∧
    (∀ o ∈ (executeSellToEnter env ledger decision capital).2.2,
      o.otype ≠ OrderType.stopMarket ∧ o.otype ≠ OrderType.takeProfitMarket) ∧
    (∀ (bo : BuyOptions) (a sl tp : ℚ),
      bo.amount = some a → a ≠ 0 → bo.orderType ≠ some EntryOrderType.limit →
      bo.stopLoss = some sl → sl ≠ 0 → bo.takeProfit = some tp → tp ≠ 0 →
      env.createOrderOk = true → env.stopOrderOk = true → env.takeProfitOrderOk = true →
      ({ symbol := normalizeSymbol bo.symbol, otype := OrderType.stopMarket,
         side := OrderSide.sell, amount := a, stopPrice := some sl,
         reduceOnly := true } : VenueOrder) ∈ (buy env bo).2 ∧
      ({ symbol := normalizeSymbol bo.symbol, otype := OrderType.takeProfitMarket,
         side := OrderSide.sell, amount := a, stopPrice := some tp,
         reduceOnly := true } : VenueOrder) ∈ (buy env bo).2) := by
  refine ⟨?_, ?_, ?_⟩
  · intro o ho
    unfold executeBuyToEnter at ho
    dsimp only at ho
    split at ho
    · exact executeBuyOrder_trace_types env _ o ho
    · rw [List.mem_append] at ho
      rcases ho with ho | ho
      · exact executeBuyOrder_trace_types env _ o ho
      · split at ho
        · rw [setStopLossAndTakeProfit_no_orders] at ho
          exact absurd ho (List.not_mem_nil o)
        · exact absurd ho (List.not_mem_nil o)
  · intro o ho
    unfold executeSellToEnter at ho
    dsimp only at ho
    split at ho
    · exact executeSellOrder_trace_types env _ o ho
    · rw [List.mem_append] at ho
      rcases ho with ho | ho
      · exact executeSellOrder_trace_types env _ o ho
      · split at ho
        · rw [setStopLossAndTakeProfit_no_orders] at ho
          exact absurd ho (List.not_mem_nil o)
        · exact absurd ho (List.not_mem_nil o)
  · intro bo a sl tp ha ha0 ht hsl hsl0 htp htp0 hord hstop htake
    have hbam : truthy bo.amount = true := by simp [ha, truthy, ha0]
    have hbot : bo.orderType.getD EntryOrderType.market = EntryOrderType.market := by
      cases h : bo.orderType with
      | none => rfl
      | some t => cases t with
        | market => rfl
        | limit => exact absurd h ht
    unfold buy
    simp only [hbam, if_true, hbot, ha, Option.getD_some]
    unfold buyPlaceOrder
    simp only [hord, if_true]
    unfold buyAfterEntry placeStopLoss placeTakeProfit
    simp [hsl, htp, truthy, hsl0, htp0, hstop, htake]
    rw [if_neg ha0]
    exact ⟨by simp, by simp⟩



/-- The standalone buy request used to exercise the protective-order path. -/
def buyWithStops : BuyOptions :=
  { symbol := "BTC", amount := some 2, stopLoss := some 90, takeProfit := some 110 }

theorem execution_service_places_no_conditional_orders_witness :
    ({ symbol := normalizeSymbol "BTC", otype := OrderType.stopMarket,
       side := OrderSide.sell, amount := 2, stopPrice := some 90,
       reduceOnly := true } : VenueOrder) ∈ (buy envEntryOnly buyWithStops).2 :=
  ((execution_service_places_no_conditional_orders envEntryOnly [] decisionWithStops 1000).2.2
    buyWithStops 2 90 110 rfl (by norm_num) (by decide) rfl (by norm_num) rfl
    (by norm_num) rfl rfl rfl).1

/-- C3: a close decision on a FLAT symbol (no live futures position with
non-zero contracts, no coin balance) fails with the no-open-position error
and places no venue order: this holds for `closePosition` of the
position-ops module (error "No position found for this symbol") and for
the close path of the standalone `sell` (error "No open position found
for <symbol>"); the only venue interaction is the existence check. -/
theorem close_flat_fails_without_orders (env : Env) (coin : SymbolType)
    (hpos : env.positions.find? (fun p =>
      (p.symbol == coin.name ++ "/USDT" || p.symbol == coin.name ++ "/USDT:USDT") &&
        decide (p.contracts ≠ 0)) = none)
    (hbal : (env.coinBalance coin).free + (env.coinBalance coin).used ≤ 0)
    (hflat : getCurrentPosition env (normalizeSymbol coin.name) = 0) :
    ((closePosition env coin).1.success = false ∧
      (closePosition env coin).1.error = some "No position found for this symbol" ∧
      (closePosition env coin).2 = []) ∧
    ((sell env { symbol := coin.name, closePosition := true }).1.success = false ∧
      (sell env { symbol := coin.name, closePosition := true }).1.error =
        some ("No open position found for " ++ normalizeSymbol coin.name) ∧
      (sell env { symbol := coin.name, closePosition := true }).2 = []) := by
  constructor
  · unfold closePosition
    dsimp only
    rw [hpos]
    simp [hbal]
  · unfold sell
    dsimp only
    rw [hflat]
    simp [sellFail]


/-- The empty venue: no positions, no balances. -/
def envFlat : Env := {}

theorem close_flat_fails_without_orders_witness :
    ((closePosition envFlat SymbolType.ETH).1.success = false ∧
      (closePosition envFlat SymbolType.ETH).1.error =
        some "No position found for this symbol" ∧
      (closePosition envFlat SymbolType.ETH).2 = []) ∧
    ((sell envFlat { symbol := SymbolType.ETH.name, closePosition := true }).1.success = false ∧
      (sell envFlat { symbol := SymbolType.ETH.name, closePosition := true }).1.error =
        some ("No open position found for " ++ normalizeSymbol SymbolType.ETH.name) ∧
      (sell envFlat { symbol := SymbolType.ETH.name, closePosition := true }).2 = []) :=
  close_flat_fails_without_orders envFlat SymbolType.ETH rfl (by norm_num [envFlat]) rfl

/-- C4: a close decision on a symbol with live signed position size q ≠ 0
derives the closing side from q, not an assumed direction: q > 0 places a
market SELL of |q| and q < 0 a market BUY of |q| (exactly netting the
position to zero), and on success the ledger entry for the symbol is
removed. -/
theorem close_side_from_live_sign (env : Env) (ledger : List PositionRisk)
    (decision : AIDecision) (pd : PositionData)
    (hfind : env.positions.find? (fun p =>
      (p.symbol == decision.coin.name ++ "/USDT" ||
        p.symbol == decision.coin.name ++ "/USDT:USDT") &&
        decide (p.contracts ≠ 0)) = some pd)
    (hord : env.createOrderOk = true) :
    (closePosition env decision.coin).2 =
      [{ symbol := pd.symbol, otype := OrderType.market,
         side := if 0 < pd.contracts then OrderSide.sell else OrderSide.buy,
         amount := |pd.contracts| }] ∧
    (closePosition env decision.coin).1.side =
      some (if 0 < pd.contracts then "SELL" else "BUY") ∧
    (executeClose env ledger decision).1.success = true ∧
    (executeClose env ledger decision).2.1 = removePosition ledger decision.coin ∧
    (∀ r ∈ (executeClose env ledger decision).2.1, r.symbol ≠ decision.coin) := by
  have hclose1 : (closePosition env decision.coin).2 =
      [{ symbol := pd.symbol, otype := OrderType.market,
         side := if 0 < pd.contracts then OrderSide.sell else OrderSide.buy,
         amount := |pd.contracts| }] := by
    unfold closePosition
    dsimp only
    rw [hfind]
    simp [hord]
  have hclose2 : (closePosition env decision.coin).1.side =
      some (if 0 < pd.contracts then "SELL" else "BUY") := by
    unfold closePosition
    dsimp only
    rw [hfind]
    simp [hord]
  have hclose3 : (closePosition env decision.coin).1.success = true := by
    unfold closePosition
    dsimp only
    rw [hfind]
    simp [hord]
  refine ⟨hclose1, hclose2, ?_, ?_, ?_⟩
  · unfold executeClose
    dsimp only
    rw [hclose3]
    simp
  · unfold executeClose
    dsimp only
    rw [hclose3]
    simp
  · intro r hr
    unfold executeClose at hr
    dsimp only at hr
    rw [hclose3] at hr
    simp only [Bool.true_eq_false, if_false] at hr
    have := List.of_mem_filter hr
    simpa using this


/-- A live short position of -2 ETH. -/
def pdETH : PositionData := { symbol := "ETH/USDT", contracts := -2 }

/-- A venue holding only the short ETH position. -/
def envShortPosition : Env := { positions := [pdETH] }

/-- A close decision for ETH. -/
def closeDecision : AIDecision := { signal := .close, coin := .ETH }

theorem close_side_from_live_sign_witness :
    (closePosition envShortPosition SymbolType.ETH).2 =
      [{ symbol := pdETH.symbol, otype := OrderType.market,
         side := if 0 < pdETH.contracts then OrderSide.sell else OrderSide.buy,
         amount := |pdETH.contracts| }] ∧
    (executeClose envShortPosition [] closeDecision).1.success = true :=
  have h := close_side_from_live_sign envShortPosition [] closeDecision pdETH
    (by decide) rfl
  ⟨h.1, h.2.2.1⟩

/-- C5: when the entry order of a buy_to_enter decision succeeds but
placing the protective levels fails, the execution service still returns
overall success and surfaces the protective failure in the warnings
array. -/
theorem entry_partial_failure_warns (env : Env) (ledger : List PositionRisk)
    (decision : AIDecision) (capital : ℚ)
    (hord : env.createOrderOk = true)
    (hsltp : (truthy decision.stop_loss || truthy decision.profit_target) = true)
    (hbal : (env.coinBalance decision.coin).free + (env.coinBalance decision.coin).used ≤ 0) :
    (executeBuyToEnter env ledger decision capital).1.success = true ∧
    "Failed to set stop loss/take profit: No position found for this symbol" ∈
      (executeBuyToEnter env ledger decision capital).1.warnings := by
  unfold executeBuyToEnter
  dsimp only
  unfold executeBuyOrder
  simp only [hord, if_true]
  unfold setStopLossAndTakeProfit
  simp [hsltp, hbal]


theorem entry_partial_failure_warns_witness :
    (executeBuyToEnter envEntryOnly [] decisionWithStops 1000).1.success = true ∧
    "Failed to set stop loss/take profit: No position found for this symbol" ∈
      (executeBuyToEnter envEntryOnly [] decisionWithStops 1000).1.warnings :=
  entry_partial_failure_warns envEntryOnly [] decisionWithStops 1000 rfl rfl
    (by norm_num [envEntryOnly])

/-- C10: when the decision's quantity is omitted or 0, both entry paths
size the entry order as `availableCapital / currentPrice` — the whole
balance at 1x notional: the decision's leverage does not enter the
fallback formula (the conclusion holds for every `decision.leverage`) and
no insufficient-capital error is raised (the result is successful). -/
theorem enter_fallback_uses_full_capital (env : Env) (ledger : List PositionRisk)
    (decision : AIDecision) (capital p : ℚ)
    (hq : truthy decision.quantity = false)
    (htick : env.tickerOk = true) (hlast : env.tickerLast = some p)
    (hp : 0 < p) (hcap : 0 < capital) (hord : env.createOrderOk = true) :
    ((executeBuyToEnter env ledger decision capital).1.success = true ∧
      ∃ rest, (executeBuyToEnter env ledger decision capital).2.2 =
        ({ symbol := decision.coin.name ++ "/USDT", otype := OrderType.market,
           side := OrderSide.buy, amount := capital / p } : VenueOrder) :: rest) ∧
    ((executeSellToEnter env ledger decision capital).1.success = true ∧
      ∃ rest, (executeSellToEnter env ledger decision capital).2.2 =
        ({ symbol := decision.coin.name ++ "/USDT", otype := OrderType.market,
           side := OrderSide.sell, amount := capital / p } : VenueOrder) :: rest) := by
  have hprice : getCurrentPrice env decision.coin = p := by
    unfold getCurrentPrice
    simp [htick, hlast, jsOrOpt, jsOr, truthy, hp.ne']
  have hfq : jsOr decision.quantity (capital / getCurrentPrice env decision.coin) =
      capital / p := by
    rw [hprice]
    simp [jsOr, hq]
  have hdiv : 0 < capital / p := div_pos hcap hp
  constructor
  · unfold executeBuyToEnter
    dsimp only
    rw [hfq, executeBuyOrder_market_ok env decision.coin _ _ hord]
    constructor
    · simp
    · exact ⟨_, List.singleton_append⟩
  · unfold executeSellToEnter
    dsimp only
    rw [hfq, executeSellOrder_pos_quantity env decision.coin _ hdiv hord]
    constructor
    · simp
    · exact ⟨_, List.singleton_append⟩


/-- A buy/sell decision with no quantity at 8x leverage. -/
def decisionNoQuantity : AIDecision := { signal := .buy_to_enter, coin := .SOL, leverage := 8 }

theorem enter_fallback_uses_full_capital_witness :
    (executeBuyToEnter envEntryOnly [] decisionNoQuantity 1000).1.success = true ∧
    (executeSellToEnter envEntryOnly [] decisionNoQuantity 1000).1.success = true :=
  have h := enter_fallback_uses_full_capital envEntryOnly [] decisionNoQuantity 1000 100
    rfl rfl rfl (by norm_num) (by norm_num) rfl
  ⟨h.1.1, h.2.1⟩

/-- C8: the Sharpe-ratio expression of the account module divides by
`totalUnrealizedPnl / initialCapital` WITHOUT a zero-denominator guard:
with zero total unrealized PnL (a zero-PnL position, or no positions at
all) the result is the non-finite `NaN`/`Infinity` (modelled `none`), not
the 0 the claim requires. -/
theorem account_sharpe_zero_pnl_non_finite :
    accountSharpeRatio [{ unrealizedPnl := some 0 }] 12000 10000 = none ∧
    accountSharpeRatio [] 12000 10000 = none := by
  constructor <;> norm_num [accountSharpeRatio, jsDiv]


end Nof1

